import Mathlib

/-!
Verification of the browser-automation dispatch scheduler
(`src/client/client-service.js`, `src/proxy/proxy-manager.js`).

The JavaScript source is shallowly embedded: JS numbers that are in fact
non-negative integers become `Nat`; JS numbers whose fractional values and
comparison behaviour matter become `Rat` (with `Option Rat` where `NaN`
can flow in: `none` models `NaN`, for which every `<`/`>` comparison is
false, exactly as in JS); `Math.random()` draws become oracle parameters;
`uuidv4()` becomes an oracle id-generator parameter; the database and the
message channel become explicit state / event lists.
-/

namespace BrowserAutomation

/-! ## Task distribution (`ClientService.calculateTaskDistribution`, lines 265-314) -/

/-- One `(device, os, count)` cell of the per-country distribution. -/
structure TaskCell where
  device : String
  os : String
  count : Nat
deriving DecidableEq

/-- Per-country block of the distribution (`distribution.push({country, tasks})`). -/
structure CountryDist where
  country : String
  tasks : List TaskCell
deriving DecidableEq

/-- A stored session row as used by `calculateTaskDistribution` /
`generateTasks`.  The three ratio strings `"A:B"` are represented by their
parsed pair `(A, B)` (the source parses them with `split(":").map(Number)`);
the spec's data-model invariant makes the components non-negative integers. -/
structure SessionRow where
  session_id : String
  tasks_24h : Nat
  countries : List String
  main_page_url : String
  navigations : List String
  mobile_desktop_distribution : Nat × Nat
  mobile_os_distribution : Nat × Nat
  desktop_os_distribution : Nat × Nat
deriving DecidableEq

/-- `ClientService.calculateTaskDistribution` (client-service.js:265-314).
`Math.floor` of a quotient of non-negative integers is `Nat` division.
JS subtraction `tasksPerCountry - mobileTotal` never truncates because
`mobileTotal ≤ tasksPerCountry` whenever the ratio sum is positive (the
degenerate ratio-sum-0 case would produce `NaN` in JS and is excluded by
hypothesis in the theorems below). -/
def calculateTaskDistribution (session : SessionRow) : List CountryDist :=
  let totalTasks := session.tasks_24h
  let countries := session.countries
  let tasksPerCountry := totalTasks / countries.length
  let mobileRatio := session.mobile_desktop_distribution.1
  let desktopRatio := session.mobile_desktop_distribution.2
  let iosRatio := session.mobile_os_distribution.1
  let androidRatio := session.mobile_os_distribution.2
  let windowsRatio := session.desktop_os_distribution.1
  let macosRatio := session.desktop_os_distribution.2
  countries.map fun country =>
    let mobileTotal := tasksPerCountry * mobileRatio / (mobileRatio + desktopRatio)
    let desktopTotal := tasksPerCountry - mobileTotal
    let iosCount := mobileTotal * iosRatio / (iosRatio + androidRatio)
    let androidCount := mobileTotal - iosCount
    let windowsCount := desktopTotal * windowsRatio / (windowsRatio + macosRatio)
    let macosCount := desktopTotal - windowsCount
    { country := country
      tasks := [
        { device := "mobile", os := "iOS", count := iosCount },
        { device := "mobile", os := "Android", count := androidCount },
        { device := "desktop", os := "Windows", count := windowsCount },
        { device := "desktop", os := "macOS", count := macosCount }] }

/-- One generated task message (`generateTasks`, client-service.js:473-485).
The two `uuidv4()` draws are modelled by the id oracle below; the
`timestamp` string is omitted (no claim depends on it). -/
structure GenTask where
  correlationId : String
  sessionId : String
  country : String
  device : String
  os : String
  mainPageUrl : String
  navigations : List String
  status : String
  retryCount : Nat
deriving DecidableEq

/-- Oracle producing the fresh correlation id of the `i`-th task generated
for a given `(country, device, os)` cell; models `uuidv4()`. -/
def IdOracle : Type := String → String → String → Nat → String

/-- The `for (let i = 0; i < deviceData.count; i++)` inner loop of
`generateTasks` for one cell. -/
def cellTasks (ids : IdOracle) (session : SessionRow) (country : String)
    (cell : TaskCell) : List GenTask :=
  (List.range cell.count).map fun i =>
    { correlationId := ids country cell.device cell.os i
      sessionId := session.session_id
      country := country
      device := cell.device
      os := cell.os
      mainPageUrl := session.main_page_url
      navigations := session.navigations
      status := "pending"
      retryCount := 0 }

/-- The nested loops of `generateTasks` (client-service.js:467-490), before
the final shuffle. -/
def generateTasksRaw (ids : IdOracle) (session : SessionRow)
    (distribution : List CountryDist) : List GenTask :=
  distribution.flatMap fun countryData =>
    countryData.tasks.flatMap fun deviceData =>
      cellTasks ids session countryData.country deviceData

/-! ## `ClientService.shuffleArray` (client-service.js:1098-1105)

The Fisher-Yates loop `for (i = len-1; i > 0; i--) { j = floor(random()*(i+1));
swap(i, j) }`.  The random draws are an oracle `r : Nat → Nat` giving the
chosen `j` for each `i`; since `Math.random() ∈ [0,1)` the real `j` always
satisfies `j ≤ i < length`, so the in-bounds guard of `swapList` is always
taken on real executions (it merely totalises the definition). -/

/-- `[l[i], l[j]] = [l[j], l[i]]` on a copy (both reads happen before the
writes). -/
def swapList (l : List α) (i j : Nat) : List α :=
  if h : i < l.length ∧ j < l.length then
    (l.set i (l.get ⟨j, h.2⟩)).set j (l.get ⟨i, h.1⟩)
  else l

/-- The descending loop of `shuffleArray`: processes indices `i, i-1, …, 1`. -/
def shuffleLoop (r : Nat → Nat) : Nat → List α → List α
  | 0, l => l
  | i + 1, l => shuffleLoop r i (swapList l (i + 1) (r (i + 1)))

/-- `ClientService.shuffleArray`: copies the array (`[...array]`) and runs
the swap loop from `length - 1` down to `1`. -/
def shuffleArray (r : Nat → Nat) (array : List α) : List α :=
  shuffleLoop r (array.length - 1) array

/-- `ClientService.generateTasks` (client-service.js:467-494): generate,
then `return this.shuffleArray(tasks)`. -/
def generateTasks (ids : IdOracle) (r : Nat → Nat) (session : SessionRow)
    (distribution : List CountryDist) : List GenTask :=
  shuffleArray r (generateTasksRaw ids session distribution)

/-- Sum of the `count` fields of a cell list. -/
def cellCountSum (cells : List TaskCell) : Nat :=
  (cells.map (·.count)).sum

/-- Sum of the counts of the cells for one device kind. -/
def deviceCountSum (device : String) (cells : List TaskCell) : Nat :=
  ((cells.filter (fun c => c.device == device)).map (·.count)).sum

/-- Sum of the counts of the cells for one OS. -/
def osCountSum (os : String) (cells : List TaskCell) : Nat :=
  ((cells.filter (fun c => c.os == os)).map (·.count)).sum

/-- The concrete session of the spec's scenario (§8): `tasks_24h = 8000`,
five countries, ratios `65:35`, `1:2`, `1:2`. -/
def exampleSession : SessionRow :=
  { session_id := "s-example"
    tasks_24h := 8000
    countries := ["ca", "de", "ch", "sg", "hk"]
    main_page_url := "https://example.com"
    navigations := ["click_first"]
    mobile_desktop_distribution := (65, 35)
    mobile_os_distribution := (1, 2)
    desktop_os_distribution := (1, 2) }

/-! ## Session intake validation (`ClientService.validateSessionData`, lines 140-168)

The incoming message is raw JSON, so field values are arbitrary JS values
and the `!sessionData[field]` test is JS truthiness.  `JSValue` covers the
value space relevant to the checks; accessing an absent property yields
`undefined`, so an absent field is represented by `.undef`. -/

/-- A JavaScript value as seen by the validator.  `.nan` is the number
`NaN` (`typeof NaN === "number"`, falsy is false… `!NaN` is `true`). -/
inductive JSValue where
  | undef
  | null
  | bool (b : Bool)
  | num (q : Rat)
  | nan
  | str (s : String)
  | arr (elems : List JSValue)

/-- JS truthiness: `undefined`, `null`, `false`, `0`, `NaN` and `""` are
falsy; every array (even `[]`) is truthy. -/
def JSValue.truthy : JSValue → Bool
  | .undef => false
  | .null => false
  | .bool b => b
  | .num q => q != 0
  | .nan => false
  | .str s => s != ""
  | .arr _ => true

/-- `Array.isArray`. -/
def JSValue.isArray : JSValue → Bool
  | .arr _ => true
  | _ => false

/-- `v === undefined`, i.e. the field is absent (JS property access on a
missing key yields `undefined`). -/
def JSValue.isUndef : JSValue → Bool
  | .undef => true
  | _ => false

/-- `v.length === 0` for the values on which the code reads `.length`
after an `Array.isArray` check. -/
def JSValue.arrayLength : JSValue → Nat
  | .arr l => l.length
  | _ => 0

/-- `typeof v === "number"` (`NaN` is a number). -/
def JSValue.isNumber : JSValue → Bool
  | .num _ => true
  | .nan => true
  | _ => false

/-- JS `v <= 0` restricted to the post-`typeof`-check position:
`NaN <= 0` is `false`. -/
def JSValue.leZero : JSValue → Bool
  | .num q => q ≤ 0
  | _ => false

/-- The raw session message; only the four validated fields are modelled.
An absent field is `.undef` (JS property access on a missing key). -/
structure SessionData where
  tasks_24h : JSValue
  countries : JSValue
  main_page_url : JSValue
  navigations : JSValue

/-- `ClientService.validateSessionData` (client-service.js:140-168),
with `throw` rendered as `Except.error` carrying the message. -/
def validateSessionData (sessionData : SessionData) : Except String Unit :=
  if !sessionData.tasks_24h.truthy then
    .error ("Missing required field: " ++ "tasks_24h")
  else if !sessionData.countries.truthy then
    .error ("Missing required field: " ++ "countries")
  else if !sessionData.main_page_url.truthy then
    .error ("Missing required field: " ++ "main_page_url")
  else if !sessionData.navigations.truthy then
    .error ("Missing required field: " ++ "navigations")
  else if !sessionData.countries.isArray || sessionData.countries.arrayLength == 0 then
    .error "Countries must be a non-empty array"
  else if !sessionData.navigations.isArray then
    .error "Navigations must be an array (can be empty for main page only visits)"
  else if !sessionData.tasks_24h.isNumber || sessionData.tasks_24h.leZero then
    .error "tasks_24h must be a positive number"
  else
    .ok ()

/-- The first required field (in the order of the `required` list) whose
value is falsy, if any. -/
def firstFalsyField (sessionData : SessionData) : Option String :=
  if !sessionData.tasks_24h.truthy then some "tasks_24h"
  else if !sessionData.countries.truthy then some "countries"
  else if !sessionData.main_page_url.truthy then some "main_page_url"
  else if !sessionData.navigations.truthy then some "navigations"
  else none

/-- The acceptance condition the validator actually implements (used for
the amended form of the spec's intake contract): all four fields truthy —
in particular `main_page_url` must not be a falsy value such as `""` —
with `countries` a non-empty array, `navigations` an array, and
`tasks_24h` a positive number. -/
def acceptedSessionData (sessionData : SessionData) : Prop :=
  sessionData.main_page_url.truthy
    ∧ sessionData.countries.isArray ∧ 0 < sessionData.countries.arrayLength
    ∧ sessionData.navigations.isArray
    ∧ (∃ q : Rat, sessionData.tasks_24h = .num q ∧ 0 < q)

instance : DecidablePred acceptedSessionData := fun sd => by
  unfold acceptedSessionData
  have : Decidable (∃ q : Rat, sd.tasks_24h = .num q ∧ 0 < q) := by
    cases h : sd.tasks_24h with
    | num q =>
      refine if hq : 0 < q then .isTrue ⟨q, rfl, hq⟩ else .isFalse ?_
      rintro ⟨p, hp, hpp⟩
      cases hp
      exact hq hpp
    | undef => exact .isFalse (by rintro ⟨p, hp, _⟩; cases hp)
    | null => exact .isFalse (by rintro ⟨p, hp, _⟩; cases hp)
    | bool b => exact .isFalse (by rintro ⟨p, hp, _⟩; cases hp)
    | nan => exact .isFalse (by rintro ⟨p, hp, _⟩; cases hp)
    | str s => exact .isFalse (by rintro ⟨p, hp, _⟩; cases hp)
    | arr l => exact .isFalse (by rintro ⟨p, hp, _⟩; cases hp)
  exact instDecidableAnd

/-- Database writes observable during session intake. -/
inductive DBWrite where
  | insertSession (sessionId : String)
  | updateSessionStatus (sessionId : String) (status : String)
deriving DecidableEq

/-- `ClientService.handleSessionMessage` (client-service.js:108-135):
validate, then `storeSession` (the `INSERT INTO sessions` write), then
process.  On any error the catch block issues only a status `UPDATE`
(`updateSessionStatus(sessionId, "failed")`) and rethrows — the session
row insert happens strictly after validation succeeded.  Task generation
and distribution after the insert are modelled separately (`generateTasks`,
`startTaskSending`); they emit no `sessions`-row insert. -/
def handleSessionMessage (sessionId : String) (sessionData : SessionData) :
    Except String Unit × List DBWrite :=
  match validateSessionData sessionData with
  | .error e => (.error e, [.updateSessionStatus sessionId "failed"])
  | .ok _ => (.ok (), [.insertSession sessionId])

/-! ## Rate manager (`RateManager`, proxy-manager.js:380-428 and 779-839)

JS numbers are modelled by `Rat`; an input that may be `NaN` is
`Option Rat` with `none = NaN` (every `<`/`>` comparison against `NaN` is
false, which `jslt`/`jsgt` reproduce; `±Infinity` behaves on these
comparisons like a rational of huge magnitude, so `Option Rat` covers the
whole double input space for the branch decisions taken here).  All
constants (`0.8`, `0.01`, …) and the clamp bounds are exactly the same
numbers in both readings, and every reachable signal sum is a multiple of
`0.05`, far from the `0.01` threshold, so the `Rat` verdicts coincide with
the IEEE-double verdicts. -/

/-- JS `x < c` where `x` may be `NaN`. -/
def jslt (x : Option Rat) (c : Rat) : Bool :=
  match x with
  | some v => v < c
  | none => false

/-- JS `x > c` where `x` may be `NaN`. -/
def jsgt (x : Option Rat) (c : Rat) : Bool :=
  match x with
  | some v => v > c
  | none => false

/-- The mutable fields of `RateManager` read or written by
`adjustRateBasedOnPerformance`: the config flag (line 399), the base rate
(line 404), `currentRateMultiplier` (line 407) and
`statistics.rateAdjustments` (line 417). -/
structure RateManagerState where
  enableDynamicAdjustment : Bool
  baseRatePerMinute : Rat
  currentRateMultiplier : Rat
  rateAdjustments : Nat
deriving DecidableEq

/-- Constructor state (proxy-manager.js:399-417):
`currentRateMultiplier = 1.0`, `rateAdjustments = 0`. -/
def initialRateManagerState (enable : Bool) (base : Rat) : RateManagerState :=
  { enableDynamicAdjustment := enable
    baseRatePerMinute := base
    currentRateMultiplier := 1
    rateAdjustments := 0 }

/-- `RateManager.getCurrentRatePerMinute` (proxy-manager.js:837-839). -/
def getCurrentRatePerMinute (st : RateManagerState) : Rat :=
  st.baseRatePerMinute * st.currentRateMultiplier

/-- The value of the JS local `adjustment` after the three signal blocks
of `adjustRateBasedOnPerformance` (proxy-manager.js:785-806). -/
def rawAdjustment (successRate avgCompletionTime scheduleProgress : Option Rat) : Rat :=
  (if jslt successRate (8/10) then -(2/10)
   else if jsgt successRate (95/100) then 1/10 else 0)
  + (if jsgt avgCompletionTime 10000 then -(15/100)
     else if jslt avgCompletionTime 3000 then 1/10 else 0)
  + (if jslt scheduleProgress (8/10) then 2/10
     else if jsgt scheduleProgress (12/10) then -(1/10) else 0)

/-- The value of `adjustment` after the "force minimum adjustment for
testing" block (proxy-manager.js:808-812). -/
def forcedAdjustment (successRate avgCompletionTime scheduleProgress : Option Rat) : Rat :=
  if |rawAdjustment successRate avgCompletionTime scheduleProgress| < 1/100 then
    (if jsgt successRate (95/100) && jslt avgCompletionTime 3000 then 5/100
     else if jslt successRate (8/10) || jsgt avgCompletionTime 10000 then -(5/100)
     else 0)
  else rawAdjustment successRate avgCompletionTime scheduleProgress

/-- `RateManager.adjustRateBasedOnPerformance` (proxy-manager.js:779-831).
The three signals, the "force minimum adjustment for testing" fallback
(hoisted into `rawAdjustment` / `forcedAdjustment` above, mirroring the
successive values of the JS local `adjustment`), the
`|adjustment| > 0.01` firing gate, the additive update
`currentRateMultiplier += adjustment` and the clamp
`Math.max(0.1, Math.min(3.0, …))`. -/
def adjustRateBasedOnPerformance (st : RateManagerState)
    (successRate avgCompletionTime scheduleProgress : Option Rat) :
    RateManagerState :=
  if !st.enableDynamicAdjustment then st
  else if |forcedAdjustment successRate avgCompletionTime scheduleProgress| > 1/100 then
    { st with
      currentRateMultiplier := max (1/10) (min 3 (st.currentRateMultiplier
        + forcedAdjustment successRate avgCompletionTime scheduleProgress))
      rateAdjustments := st.rateAdjustments + 1 }
  else st

/-- A sequence of `adjustRateBasedOnPerformance` calls
(successRate, avgCompletionTime, scheduleProgress). -/
def runAdjustments (st : RateManagerState)
    (inputs : List (Option Rat × Option Rat × Option Rat)) : RateManagerState :=
  inputs.foldl (fun s i => adjustRateBasedOnPerformance s i.1 i.2.1 i.2.2) st

/-- The "sum of three independent signals" exactly as the claim words it:
`successRate < 0.8 → −0.2, successRate > 0.95 → +0.1;
avgLatencyMs > 10000 → −0.15, avgLatencyMs < 3000 → +0.1;
scheduleProgress < 0.8 → +0.2, scheduleProgress > 1.2 → −0.1`. -/
def claimSignalSum (successRate avgLatencyMs scheduleProgress : Option Rat) : Rat :=
  (if jslt successRate (8/10) then -(2/10)
   else if jsgt successRate (95/100) then 1/10 else 0)
  + (if jsgt avgLatencyMs 10000 then -(15/100)
     else if jslt avgLatencyMs 3000 then 1/10 else 0)
  + (if jslt scheduleProgress (8/10) then 2/10
     else if jsgt scheduleProgress (12/10) then -(1/10) else 0)

/-- The fallback adjustment substituted when `|signal sum| < 0.01`
(proxy-manager.js:808-812). -/
def fallbackAdjustment (successRate avgCompletionTime : Option Rat) : Rat :=
  if jsgt successRate (95/100) && jslt avgCompletionTime 3000 then 5/100
  else if jslt successRate (8/10) || jsgt avgCompletionTime 10000 then -(5/100)
  else 0

/-- The amended description of `adjust` (spec wording, corrected): take the
signal sum; below the `0.01` threshold substitute the fallback; if the
magnitude of the resulting adjustment exceeds `0.01`, add it to
`rateMultiplier`, clamp to `[0.1, 3.0]` and count one firing; otherwise
leave the state unchanged. -/
def amendedAdjust (st : RateManagerState)
    (successRate avgCompletionTime scheduleProgress : Option Rat) :
    RateManagerState :=
  if !st.enableDynamicAdjustment then st
  else
    let sum := claimSignalSum successRate avgCompletionTime scheduleProgress
    let adjustment :=
      if |sum| < 1/100 then fallbackAdjustment successRate avgCompletionTime
      else sum
    if |adjustment| > 1/100 then
      { st with
        currentRateMultiplier := max (1/10) (min 3 (st.currentRateMultiplier + adjustment))
        rateAdjustments := st.rateAdjustments + 1 }
    else st

/-! ## Task failure handling (`ClientService.handleTaskFailure`, lines 774-790)

`maxRetries` defaults to `5` (client-service.js:29).  The task object the
handler receives does not always carry a `retryCount`: the dispatch-loop
catch (line 574) passes the full task, but the RPC failure path
(`sendRPCRequestNonBlocking`, line 670) passes the fresh object
`{ correlationId }`, whose `retryCount` is `undefined`.  `Option Nat`
models this: `none` is `undefined`, and the JS comparison
`undefined < maxRetries` is false. -/

/-- What `handleTaskFailure` does with a failed task. -/
inductive FailureAction where
  | scheduleRetry (newRetryCount : Nat) (delayMs : Nat)
  | permanentFailure
deriving DecidableEq

/-- `ClientService.handleTaskFailure` (client-service.js:774-790):
`if (task.retryCount < maxRetries) { task.retryCount++;
delay = 2^task.retryCount * 1000; setTimeout(resend, delay) } else
{ mark failed permanently }`.  The delay uses the already-incremented
count. -/
def handleTaskFailure (maxRetries : Nat) (retryCount : Option Nat) : FailureAction :=
  match retryCount with
  | some rc =>
    if rc < maxRetries then .scheduleRetry (rc + 1) (2 ^ (rc + 1) * 1000)
    else .permanentFailure
  | none => .permanentFailure

/-- The `retryCount` property of the object passed to `handleTaskFailure`
by the RPC failure path (client-service.js:670): `{ correlationId }` has
no such property, i.e. `undefined`. -/
def rpcFailureRetryCount : Option Nat := none

/-- The `retryCount` property of the full task object passed by the
dispatch-loop catch (client-service.js:574). -/
def dispatchFailureRetryCount (task : GenTask) : Option Nat := some task.retryCount

/-- Default `maxRetries` (client-service.js:29). -/
def defaultMaxRetries : Nat := 5

/-! ## Dispatch loop (`ClientService.startTaskSending`/`sendTaskToWorker`,
lines 526-648)

`sendTaskToWorker` fires `sendRPCRequestNonBlocking` without `await` and
returns `{status: "sent", correlation_id}` at once; the loop then computes
the pacing delay from the rate manager and reschedules itself.  Replies
are handled by `handleTaskResponse` (lines 677-712), which only touches
persisted task statuses.  The model below runs both as one step relation
parameterised over an arbitrary reply schedule, so independence of the
send cadence from reply latency is a statement, not an assumption. -/

/-- The value `sendTaskToWorker` resolves with. -/
structure RPCResult where
  status : String
  correlation_id : String
deriving DecidableEq

/-- `ClientService.sendTaskToWorker` (client-service.js:622-648): hands the
message off and returns immediately, not awaiting the RPC reply. -/
def sendTaskToWorker (task : GenTask) : RPCResult :=
  { status := "sent", correlation_id := task.correlationId }

/-- An RPC reply (`Task RPC reply` message). -/
structure Reply where
  correlation_id : String
  status : String
deriving DecidableEq

/-- `Map.set`-style association update: overwrite if the key is present,
append otherwise. -/
def assocSet (m : List (String × α)) (k : String) (v : α) : List (String × α) :=
  if m.any (fun p => p.1 == k) then
    m.map (fun p => if p.1 == k then (k, v) else p)
  else m ++ [(k, v)]

/-- Observable state of one dispatch loop plus the task-status store. -/
structure DispatchState where
  taskIndex : Nat
  sentLog : List RPCResult
  delayLog : List Rat
  rmTasksSent : Nat
  dbStatuses : List (String × String)
deriving DecidableEq

/-- The loop state before the first `sendNextTask` call. -/
def initialDispatchState : DispatchState :=
  { taskIndex := 0, sentLog := [], delayLog := [], rmTasksSent := 0, dbStatuses := [] }

/-- `ClientService.handleTaskResponse` (client-service.js:677-712), reduced
to its task-status write: `completed` on a `"successful"` reply, else
`failed`. -/
def handleTaskResponse (db : List (String × String)) (reply : Reply) :
    List (String × String) :=
  assocSet db reply.correlation_id
    (if reply.status == "successful" then "completed" else "failed")

/-- The pacing delay of one iteration, normal (non-debug) timing
(client-service.js:600-604): `delayMs = (60 / rateManager.currentRate) *
1000`, then `delayMs + (Math.random() - 0.5) * delayMs * 0.2` (±10%
jitter), where `rand ∈ [0,1)` is the `Math.random()` draw. -/
def pacingDelay (rate rand : Rat) : Rat :=
  let delayMs := 60 / rate * 1000
  delayMs + (rand - 1/2) * delayMs * (2/10)

/-- One iteration of `sendNextTask` (client-service.js:539-613), normal
(non-debug) timing: if the cursor has reached the end of the list
(`taskIndex >= tasks.length`, rendered as `tasks[taskIndex]? = none`) the
loop finalises the session and stops — no further sends or delays;
otherwise take the task at the cursor, send it (the returned response is
immediate), record `tasksSent`, mark the task `sent` in the store, and
schedule the next iteration after `pacingDelay`. -/
def sendNextTask (tasks : List GenTask) (rate : Rat) (rand : Rat)
    (st : DispatchState) : DispatchState :=
  match tasks[st.taskIndex]? with
  | none => st
  | some task =>
    { taskIndex := st.taskIndex + 1
      sentLog := st.sentLog ++ [sendTaskToWorker task]
      delayLog := st.delayLog ++ [pacingDelay rate rand]
      rmTasksSent := st.rmTasksSent + 1
      dbStatuses := assocSet st.dbStatuses task.correlationId "sent" }

/-- `n` scheduler rounds of the composed system: before the `k`-th loop
iteration, all replies the schedule delivers at round `k` are processed by
`handleTaskResponse`; then the loop body runs.  `rate k` is the
`rateManager.currentRate` read at round `k` and `rand k` the jitter draw. -/
def runDispatch (tasks : List GenTask) (rate : Nat → Rat) (rand : Nat → Rat)
    (replies : Nat → List Reply) : Nat → DispatchState
  | 0 => initialDispatchState
  | n + 1 =>
    let st := runDispatch tasks rate rand replies n
    let st1 := { st with dbStatuses := (replies n).foldl handleTaskResponse st.dbStatuses }
    sendNextTask tasks (rate n) (rand n) st1

/-! ## Startup recovery (`recoverPendingTasks` lines 821-981,
`recoverActiveSessionsWithFallback` lines 1030-1086)

The recovery query joins `tasks` to `sessions` and returns rows with
`t.status IN ('pending','sent')`; the model takes the returned row list
as input (the "store state").  JS `Map` iteration preserves insertion
order, so the per-session grouping is an association list built by first
appearance.  The `JSON.parse`-with-fallback of the navigation string does
not affect any claim and the raw string is carried through unchanged. -/

/-- One row of the recovery query (client-service.js:826-847). -/
structure TaskRow where
  correlation_id : String
  session_id : String
  country : String
  device : String
  os : String
  main_page_url : String
  navigations : String
  status : String
deriving DecidableEq

/-- The in-memory task object recovery rebuilds from a row
(client-service.js:902-913): note `retryCount` restarts at `0` and
`status` is copied from the row. -/
structure RecoveredTask where
  correlationId : String
  sessionId : String
  country : String
  device : String
  os : String
  mainPageUrl : String
  navigations : String
  status : String
  retryCount : Nat
deriving DecidableEq

/-- Row-to-task conversion (client-service.js:902-913). -/
def rowToTask (row : TaskRow) : RecoveredTask :=
  { correlationId := row.correlation_id
    sessionId := row.session_id
    country := row.country
    device := row.device
    os := row.os
    mainPageUrl := row.main_page_url
    navigations := row.navigations
    status := row.status
    retryCount := 0 }

/-- The `tasksBySession` map (client-service.js:857-916): for each row, if
its session is new, append a fresh group, else append the task to the
existing group. -/
def groupTasksBySession (rows : List TaskRow) : List (String × List RecoveredTask) :=
  rows.foldl
    (fun acc row =>
      if acc.any (fun p => p.1 == row.session_id) then
        acc.map (fun p =>
          if p.1 == row.session_id then (p.1, p.2 ++ [rowToTask row]) else p)
      else acc ++ [(row.session_id, [rowToTask row])])
    []

/-- `sessionData.tasks.filter((task) => task.status === "pending")`
(client-service.js:929-931). -/
def pendingOf (tasks : List RecoveredTask) : List RecoveredTask :=
  tasks.filter (fun t => t.status == "pending")

/-- The dispatch loops `recoverPendingTasks` starts: one
`startTaskSending(sessionId, pendingTasks)` call per recovered session
whose pending-task list is non-empty (client-service.js:933-939). -/
def startedLoops (rows : List TaskRow) : List (String × List RecoveredTask) :=
  (groupTasksBySession rows).filterMap fun p =>
    let pending := pendingOf p.2
    if pending.length > 0 then some (p.1, pending) else none

/-- An entry of the `activeSessions` registry. -/
inductive SessionEntry where
  | recoveredSession (sessionId : String)
  | resumedSession (tasks : List RecoveredTask)
deriving DecidableEq

/-- The in-memory state recovery mutates: the `activeSessions` map and the
set of running dispatch loops (each `startTaskSending` call spawns one
self-rescheduling `sendNextTask` chain; nothing ever stops or deduplicates
a chain, so the loops are a list that only grows). -/
structure ClientState where
  activeSessions : List (String × SessionEntry)
  dispatchLoops : List (String × List RecoveredTask)
deriving DecidableEq

/-- State of a freshly started service. -/
def emptyClientState : ClientState :=
  { activeSessions := [], dispatchLoops := [] }

/-- Per-session body of the resume loop (client-service.js:919-957): if
the session has pending tasks, start a dispatch loop over exactly those
and register the session (`activeSessions.set`); otherwise do nothing.
(`initializeRateManager` inserts a fresh `rate_management` row — that
table has no uniqueness constraint on `session_id`, so the insert always
succeeds and is not modelled.) -/
def resumeSession (st : ClientState) (grp : String × List RecoveredTask) : ClientState :=
  let pendingTasks := pendingOf grp.2
  if pendingTasks.length > 0 then
    { st with
      dispatchLoops := st.dispatchLoops ++ [(grp.1, pendingTasks)]
      activeSessions := assocSet st.activeSessions grp.1 (.resumedSession pendingTasks) }
  else st

/-- `ClientService.recoverPendingTasks` (client-service.js:821-981) as a
transformer of the in-memory state, for a fixed store answer `rows`. -/
def recoverPendingTasksState (rows : List TaskRow) (st : ClientState) : ClientState :=
  (groupTasksBySession rows).foldl resumeSession st

/-- `ClientService.recoverActiveSessionsWithFallback`
(client-service.js:1030-1086): registers every `processing`/`active`
session row in `activeSessions` (a `Map.set` per row). -/
def recoverActiveSessionsState (sessionIds : List String) (st : ClientState) : ClientState :=
  { st with
    activeSessions :=
      sessionIds.foldl (fun m sid => assocSet m sid (.recoveredSession sid)) st.activeSessions }

/-- The recovery sequence of `ClientService.start` (client-service.js:56-59):
sessions first, then pending tasks, both against the same store state. -/
def recoverStartup (sessionIds : List String) (rows : List TaskRow)
    (st : ClientState) : ClientState :=
  recoverPendingTasksState rows (recoverActiveSessionsState sessionIds st)

/-- A one-session, one-pending-task store state used to exhibit the
duplicate dispatch loop started by a second recovery run. -/
def exampleTaskRow : TaskRow :=
  { correlation_id := "c-1"
    session_id := "s-1"
    country := "ca"
    device := "mobile"
    os := "iOS"
    main_page_url := "https://example.com"
    navigations := "[]"
    status := "pending" }

/-- A store state with one further task already `sent` in the same
session, plus a second session whose only task is `sent`. -/
def exampleSentRow : TaskRow :=
  { exampleTaskRow with correlation_id := "c-2", status := "sent" }

/-- The `sent`-only second session's row. -/
def exampleOtherSessionRow : TaskRow :=
  { exampleTaskRow with correlation_id := "c-3", session_id := "s-2", status := "sent" }

/-! ## Helper lemmas: a two-position swap is a permutation -/

theorem get_cons_set_perm (t : List α) (m : Nat) (hm : m < t.length) (x : α) :
    List.Perm (t.get ⟨m, hm⟩ :: t.set m x) (x :: t) := by
  induction t generalizing m with
  | nil => simp at hm
  | cons b s ih =>
    cases m with
    | zero => simpa using List.Perm.swap x b s
    | succ k =>
      have hk : k < s.length := by simpa using hm
      show List.Perm (s.get ⟨k, hk⟩ :: b :: s.set k x) (x :: b :: s)
      exact ((List.Perm.swap b _ _).trans ((ih k hk).cons b)).trans (List.Perm.swap x b s)

theorem set_set_perm (l : List α) (i j : Nat) (hi : i < l.length) (hj : j < l.length) :
    List.Perm ((l.set i (l.get ⟨j, hj⟩)).set j (l.get ⟨i, hi⟩)) l := by
  induction l generalizing i j with
  | nil => simp at hi
  | cons a t ih =>
    cases i with
    | zero =>
      cases j with
      | zero => exact List.Perm.refl _
      | succ m =>
        have hm : m < t.length := by simpa using hj
        show List.Perm (t.get ⟨m, hm⟩ :: t.set m a) (a :: t)
        exact get_cons_set_perm t m hm a
    | succ n =>
      cases j with
      | zero =>
        have hn : n < t.length := by simpa using hi
        show List.Perm (t.get ⟨n, hn⟩ :: t.set n a) (a :: t)
        exact get_cons_set_perm t n hn a
      | succ m =>
        have hn : n < t.length := by simpa using hi
        have hm : m < t.length := by simpa using hj
        show List.Perm (a :: (t.set n (t.get ⟨m, hm⟩)).set m (t.get ⟨n, hn⟩)) (a :: t)
        exact (ih n m hn hm).cons a

theorem swapList_perm (l : List α) (i j : Nat) : List.Perm (swapList l i j) l := by
  unfold swapList
  split
  next h => exact set_set_perm l i j h.1 h.2
  next => exact List.Perm.refl l

theorem shuffleLoop_perm (r : Nat → Nat) (n : Nat) (l : List α) :
    List.Perm (shuffleLoop r n l) l := by
  induction n generalizing l with
  | zero => exact List.Perm.refl l
  | succ i ih => exact (ih _).trans (swapList_perm l (i + 1) (r (i + 1)))

theorem shuffleArray_perm (r : Nat → Nat) (l : List α) :
    List.Perm (shuffleArray r l) l :=
  shuffleLoop_perm r (l.length - 1) l

/-- Claim C9: for every input array and every sequence of random draws,
`shuffleArray` returns a permutation of the input — same length and same
multiset of elements — (the input itself is untouched: the loop swaps
inside the spread copy `[...array]`, which the pure embedding renders by
returning a new list); hence `generateTasks` emits exactly the tasks built
by its generation loops, in some order. -/
theorem shuffleArray_permutes :
    (∀ (α : Type) [DecidableEq α] (r : Nat → Nat) (array : List α),
        List.Perm (shuffleArray r array) array
          ∧ (shuffleArray r array).length = array.length
          ∧ ∀ a, (shuffleArray r array).count a = array.count a)
      ∧ ∀ (ids : IdOracle) (r : Nat → Nat) (session : SessionRow)
          (distribution : List CountryDist),
          List.Perm (generateTasks ids r session distribution)
            (generateTasksRaw ids session distribution) := by
  constructor
  · intro α inst r array
    refine ⟨shuffleArray_perm r array, (shuffleArray_perm r array).length_eq, ?_⟩
    intro a
    exact (shuffleArray_perm r array).count_eq a
  · intro ids r session distribution
    exact shuffleArray_perm r (generateTasksRaw ids session distribution)

/-! ## Helper lemmas for the distribution sums -/

theorem div_ratio_le (m a b : Nat) : m * a / (a + b) ≤ m := by
  rcases Nat.eq_zero_or_pos (a + b) with h | h
  · rw [h]
    simp
  · exact le_trans
      (Nat.div_le_div_right (Nat.mul_le_mul_left m (Nat.le_add_right a b)))
      (le_of_eq (Nat.mul_div_cancel m h))

theorem length_generateTasksRaw (ids : IdOracle) (s : SessionRow)
    (d : List CountryDist) :
    (generateTasksRaw ids s d).length = (d.map fun cd => cellCountSum cd.tasks).sum := by
  have hcell : ∀ (c : String) (cells : List TaskCell),
      (cells.flatMap (cellTasks ids s c)).length = cellCountSum cells := by
    intro c cells
    induction cells with
    | nil => simp [cellCountSum]
    | cons a t ih => simp [cellTasks, cellCountSum, ih]
  unfold generateTasksRaw
  induction d with
  | nil => simp
  | cons cd t ih => simp [List.flatMap_cons, ih, hcell]

theorem sum_map_const_nat (l : List β) (k : Nat) :
    (l.map fun _ => k).sum = l.length * k := by
  induction l with
  | nil => simp
  | cons a t ih => simp [ih, Nat.succ_mul, Nat.add_comm]

/-- Claim C1: for a valid session the distribution calculation yields, per
country, four `(device, os)` cells whose counts sum exactly to
`perCountry = ⌊tasksPerDay / countries.length⌋`, with
`mobileCount = ⌊perCountry·mobileRatio/(mobileRatio+desktopRatio)⌋`,
`desktopCount = perCountry − mobileCount`, and the OS counts split from
them by the same floor-and-remainder rule; the generated task list has
exactly `countries.length * perCountry` entries; and on the spec's
scenario (8000 tasks, 5 countries, ratio 65:35) each country gets 1600
tasks, 1040 mobile and 560 desktop. -/
theorem taskDistribution_sums (s : SessionRow) (ids : IdOracle) (r : Nat → Nat)
    (hc : s.countries ≠ [])
    (hmd : 0 < s.mobile_desktop_distribution.1 + s.mobile_desktop_distribution.2)
    (hmo : 0 < s.mobile_os_distribution.1 + s.mobile_os_distribution.2)
    (hdo : 0 < s.desktop_os_distribution.1 + s.desktop_os_distribution.2) :
    (generateTasks ids r s (calculateTaskDistribution s)).length
        = s.countries.length * (s.tasks_24h / s.countries.length)
      ∧ (∀ cd ∈ calculateTaskDistribution s,
          cellCountSum cd.tasks = s.tasks_24h / s.countries.length
          ∧ deviceCountSum "mobile" cd.tasks
              = s.tasks_24h / s.countries.length * s.mobile_desktop_distribution.1
                  / (s.mobile_desktop_distribution.1 + s.mobile_desktop_distribution.2)
          ∧ deviceCountSum "desktop" cd.tasks
              = s.tasks_24h / s.countries.length - deviceCountSum "mobile" cd.tasks
          ∧ osCountSum "iOS" cd.tasks
              = s.tasks_24h / s.countries.length * s.mobile_desktop_distribution.1
                  / (s.mobile_desktop_distribution.1 + s.mobile_desktop_distribution.2)
                  * s.mobile_os_distribution.1
                  / (s.mobile_os_distribution.1 + s.mobile_os_distribution.2)
          ∧ osCountSum "Android" cd.tasks
              = deviceCountSum "mobile" cd.tasks - osCountSum "iOS" cd.tasks
          ∧ osCountSum "Windows" cd.tasks
              = (s.tasks_24h / s.countries.length
                  - s.tasks_24h / s.countries.length * s.mobile_desktop_distribution.1
                      / (s.mobile_desktop_distribution.1 + s.mobile_desktop_distribution.2))
                  * s.desktop_os_distribution.1
                  / (s.desktop_os_distribution.1 + s.desktop_os_distribution.2)
          ∧ osCountSum "macOS" cd.tasks
              = deviceCountSum "desktop" cd.tasks - osCountSum "Windows" cd.tasks)
      ∧ (∀ cd ∈ calculateTaskDistribution exampleSession,
          cellCountSum cd.tasks = 1600
          ∧ deviceCountSum "mobile" cd.tasks = 1040
          ∧ deviceCountSum "desktop" cd.tasks = 560) := by
  have hcells : ∀ cd ∈ calculateTaskDistribution s,
      cellCountSum cd.tasks = s.tasks_24h / s.countries.length
      ∧ deviceCountSum "mobile" cd.tasks
          = s.tasks_24h / s.countries.length * s.mobile_desktop_distribution.1
              / (s.mobile_desktop_distribution.1 + s.mobile_desktop_distribution.2)
      ∧ deviceCountSum "desktop" cd.tasks
          = s.tasks_24h / s.countries.length - deviceCountSum "mobile" cd.tasks
      ∧ osCountSum "iOS" cd.tasks
          = s.tasks_24h / s.countries.length * s.mobile_desktop_distribution.1
              / (s.mobile_desktop_distribution.1 + s.mobile_desktop_distribution.2)
              * s.mobile_os_distribution.1
              / (s.mobile_os_distribution.1 + s.mobile_os_distribution.2)
      ∧ osCountSum "Android" cd.tasks
          = deviceCountSum "mobile" cd.tasks - osCountSum "iOS" cd.tasks
      ∧ osCountSum "Windows" cd.tasks
          = (s.tasks_24h / s.countries.length
              - s.tasks_24h / s.countries.length * s.mobile_desktop_distribution.1
                  / (s.mobile_desktop_distribution.1 + s.mobile_desktop_distribution.2))
              * s.desktop_os_distribution.1
              / (s.desktop_os_distribution.1 + s.desktop_os_distribution.2)
      ∧ osCountSum "macOS" cd.tasks
          = deviceCountSum "desktop" cd.tasks - osCountSum "Windows" cd.tasks := by
    intro cd hcd
    simp only [calculateTaskDistribution] at hcd
    rcases List.mem_map.mp hcd with ⟨c, hcmem, rfl⟩
    have h1 := div_ratio_le (s.tasks_24h / s.countries.length)
      s.mobile_desktop_distribution.1 s.mobile_desktop_distribution.2
    have h2 := div_ratio_le
      (s.tasks_24h / s.countries.length * s.mobile_desktop_distribution.1
        / (s.mobile_desktop_distribution.1 + s.mobile_desktop_distribution.2))
      s.mobile_os_distribution.1 s.mobile_os_distribution.2
    have h3 := div_ratio_le
      (s.tasks_24h / s.countries.length
        - s.tasks_24h / s.countries.length * s.mobile_desktop_distribution.1
            / (s.mobile_desktop_distribution.1 + s.mobile_desktop_distribution.2))
      s.desktop_os_distribution.1 s.desktop_os_distribution.2
    simp only [cellCountSum, deviceCountSum, osCountSum, List.filter, List.map,
      List.sum_cons, List.sum_nil]
    refine ⟨by omega, by omega, by omega, by omega, by omega, by omega, by omega⟩
  refine ⟨?_, hcells, by decide⟩
  have hperm := shuffleArray_perm r (generateTasksRaw ids s (calculateTaskDistribution s))
  rw [generateTasks, hperm.length_eq, length_generateTasksRaw]
  have hmapeq : (calculateTaskDistribution s).map (fun cd => cellCountSum cd.tasks)
      = (calculateTaskDistribution s).map
          (fun _ => s.tasks_24h / s.countries.length) :=
    List.map_congr_left (fun cd hcd => (hcells cd hcd).1)
  rw [hmapeq, sum_map_const_nat]
  have hdl : (calculateTaskDistribution s).length = s.countries.length := by
    simp [calculateTaskDistribution]
  rw [hdl]

/-- Witness for `taskDistribution_sums` at the spec's concrete scenario
session. -/
theorem taskDistribution_sums_witness :
    exampleSession.countries ≠ []
      ∧ (generateTasks (fun _ _ _ _ => "id") (fun _ => 0) exampleSession
          (calculateTaskDistribution exampleSession)).length = 5 * 1600 := by
  refine ⟨by decide, ?_⟩
  have h := taskDistribution_sums exampleSession (fun _ _ _ _ => "id") (fun _ => 0)
    (by decide) (by decide) (by decide) (by decide)
  exact h.1.trans (by decide)

/-! ## Claims about session intake validation -/

/-- Claim C10: the required-field check of `validateSessionData` tests JS
falsiness, not absence: whenever one of the four required fields holds a
falsy value (for example `main_page_url = ""` or `tasks_24h = 0`), the
validator throws `Missing required field: <first falsy field>` — and
because that loop precedes the other checks, this error wins over every
other validation error. -/
theorem validate_falsy_field_rejected (sessionData : SessionData) (f : String)
    (h : firstFalsyField sessionData = some f) :
    validateSessionData sessionData = .error ("Missing required field: " ++ f) := by
  unfold firstFalsyField at h
  unfold validateSessionData
  by_cases h1 : sessionData.tasks_24h.truthy
  · by_cases h2 : sessionData.countries.truthy
    · by_cases h3 : sessionData.main_page_url.truthy
      · by_cases h4 : sessionData.navigations.truthy
        · simp [h1, h2, h3, h4] at h
        · simp [h1, h2, h3, h4] at h ⊢
          subst h
          rfl
      · simp [h1, h2, h3] at h ⊢
        subst h
        rfl
    · simp [h1, h2] at h ⊢
      subst h
      rfl
  · simp [h1] at h ⊢
    subst h
    rfl

/-- Witness for `validate_falsy_field_rejected`: a message whose
`main_page_url` is present but `""` (all other requirements satisfied, and
`countries` even also failing the array check to show the missing-field
error wins) is rejected as a missing field. -/
theorem validate_falsy_field_rejected_witness :
    firstFalsyField
        { tasks_24h := .num 100
          countries := .num 7
          main_page_url := .str ""
          navigations := .arr [] } = some "main_page_url"
      ∧ validateSessionData
          { tasks_24h := .num 100
            countries := .num 7
            main_page_url := .str ""
            navigations := .arr [] }
          = .error ("Missing required field: " ++ "main_page_url") := by
  constructor
  · rfl
  · exact validate_falsy_field_rejected _ "main_page_url" rfl

/-- Counterexample to claim C5 as stated: this session specification has
all four required fields present, a non-empty `countries` array, a
`navigations` array and a positive numeric `tasks_24h` — by the claim it
must be accepted — yet the validator rejects it, because
`main_page_url = ""` is falsy and the required-field loop tests
falsiness. -/
theorem validate_accepts_claim_counterexample :
    (let sd : SessionData :=
      { tasks_24h := .num 100
        countries := .arr [.str "US"]
        main_page_url := .str ""
        navigations := .arr [] }
     sd.tasks_24h.isUndef = false ∧ sd.countries.isUndef = false
       ∧ sd.main_page_url.isUndef = false ∧ sd.navigations.isUndef = false
       ∧ sd.countries.isArray = true ∧ 0 < sd.countries.arrayLength
       ∧ sd.navigations.isArray = true
       ∧ sd.tasks_24h.isNumber = true ∧ sd.tasks_24h.leZero = false
       ∧ validateSessionData sd ≠ .ok ()) := by
  refine ⟨rfl, rfl, rfl, rfl, rfl, by decide, rfl, rfl, by decide, ?_⟩
  intro hcontra
  have hval : validateSessionData
      { tasks_24h := .num 100
        countries := .arr [.str "US"]
        main_page_url := .str ""
        navigations := .arr [] }
      = .error ("Missing required field: " ++ "main_page_url") := rfl
  rw [hval] at hcontra
  exact Except.noConfusion hcontra

/-- Claim C5 as amended: the validator accepts exactly the session
specifications whose four required fields are truthy — so a present but
falsy field, e.g. `main_page_url = ""` or `tasks_24h = 0`, is rejected
(as a missing field) — with `countries` a non-empty array, `navigations`
an array (the empty array is truthy and validates: main-page-only
sessions are legal) and `tasks_24h` a positive number; and
`handleSessionMessage` runs validation first, so on a validation error no
session row is inserted into the store. -/
theorem validate_accepts_iff :
    (∀ sessionData : SessionData,
        validateSessionData sessionData = .ok () ↔ acceptedSessionData sessionData)
      ∧ ∀ (sessionId : String) (sessionData : SessionData) (e : String),
          validateSessionData sessionData = .error e →
          ∀ sid, .insertSession sid ∉ (handleSessionMessage sessionId sessionData).2 := by
  constructor
  · intro sd
    constructor
    · intro h
      unfold validateSessionData at h
      by_cases h1 : sd.tasks_24h.truthy <;> simp [h1] at h
      by_cases h2 : sd.countries.truthy <;> simp [h2] at h
      by_cases h3 : sd.main_page_url.truthy <;> simp [h3] at h
      by_cases h4 : sd.navigations.truthy <;> simp [h4] at h
      by_cases h5 : sd.countries.isArray = true ∧ sd.countries.arrayLength ≠ 0
      · by_cases h6 : sd.navigations.isArray <;>
          simp [h5.1, h5.2, h6] at h
        by_cases h7 : sd.tasks_24h.isNumber ∧ sd.tasks_24h.leZero = false
        · refine ⟨h3, h5.1, Nat.pos_of_ne_zero h5.2, h6, ?_⟩
          cases ht : sd.tasks_24h with
          | num q =>
            refine ⟨q, rfl, ?_⟩
            have := h7.2
            rw [ht] at this
            simpa [JSValue.leZero] using this
          | undef => rw [ht] at h7; simp [JSValue.isNumber] at h7
          | null => rw [ht] at h7; simp [JSValue.isNumber] at h7
          | bool b => rw [ht] at h7; simp [JSValue.isNumber] at h7
          | nan => rw [ht] at h1; simp [JSValue.truthy] at h1
          | str t => rw [ht] at h7; simp [JSValue.isNumber] at h7
          | arr l => rw [ht] at h7; simp [JSValue.isNumber] at h7
        · rcases Decidable.not_and_iff_or_not.mp h7 with h7a | h7b
          · simp [h7a] at h
          · have : sd.tasks_24h.leZero = true := by
              revert h7b
              cases sd.tasks_24h.leZero <;> simp
            simp [this] at h
      · rcases Decidable.not_and_iff_or_not.mp h5 with h5a | h5b
        · simp [h5a] at h
        · have : sd.countries.arrayLength = 0 := by
            revert h5b
            simp
          simp [this] at h
    · rintro ⟨hurl, hcarr, hclen, hnarr, q, hq, hqpos⟩
      have hct : sd.countries.truthy := by
        cases hc : sd.countries <;> rw [hc] at hcarr <;> simp [JSValue.isArray] at hcarr
          <;> simp [JSValue.truthy]
      have hnt : sd.navigations.truthy := by
        cases hn : sd.navigations <;> rw [hn] at hnarr <;> simp [JSValue.isArray] at hnarr
          <;> simp [JSValue.truthy]
      have ht24 : JSValue.truthy (.num q) = true := by
        simp [JSValue.truthy, hqpos.ne']
      have hnum : JSValue.isNumber (.num q) = true := rfl
      have hle : JSValue.leZero (.num q) = false :=
        decide_eq_false_iff_not.mpr (not_le.mpr hqpos)
      unfold validateSessionData
      rw [hq]
      simp [ht24, hnum, hle, hurl, hct, hnt, hcarr, hnarr,
        Nat.pos_iff_ne_zero.mp hclen]
  · intro sessionId sd e he sid
    unfold handleSessionMessage
    rw [he]
    simp

/-- Witness for `validate_accepts_iff`: a main-page-only session
(`navigations = []`) validates, and a rejected session (`tasks_24h = 0`)
causes no session-row insert. -/
theorem validate_accepts_iff_witness :
    validateSessionData
        { tasks_24h := .num 8000
          countries := .arr [.str "ca"]
          main_page_url := .str "https://example.com"
          navigations := .arr [] } = .ok ()
      ∧ DBWrite.insertSession "sid-1" ∉ (handleSessionMessage "sid-1"
          { tasks_24h := .num 0
            countries := .arr [.str "ca"]
            main_page_url := .str "https://example.com"
            navigations := .arr [] }).2 := by
  constructor
  · exact (validate_accepts_iff.1 _).mpr
      ⟨by decide, rfl, by decide, rfl, 8000, rfl, by norm_num⟩
  · exact validate_accepts_iff.2 "sid-1"
      { tasks_24h := .num 0
        countries := .arr [.str "ca"]
        main_page_url := .str "https://example.com"
        navigations := .arr [] }
      ("Missing required field: " ++ "tasks_24h") rfl "sid-1"

/-! ## Claims about the rate manager -/

theorem clamp_bounds (x : Rat) :
    1/10 ≤ max (1/10) (min 3 x) ∧ max (1/10) (min 3 x) ≤ 3 :=
  ⟨le_max_left _ _, max_le (by norm_num) (min_le_left _ _)⟩

theorem adjust_mult_cases (st : RateManagerState) (x y z : Option Rat) :
    (adjustRateBasedOnPerformance st x y z).currentRateMultiplier
        = st.currentRateMultiplier
      ∨ ∃ adj : Rat, (adjustRateBasedOnPerformance st x y z).currentRateMultiplier
          = max (1/10) (min 3 (st.currentRateMultiplier + adj)) := by
  unfold adjustRateBasedOnPerformance
  split
  · exact Or.inl rfl
  · split
    · exact Or.inr ⟨_, rfl⟩
    · exact Or.inl rfl

/-- Claim C3: starting from the constructor value `1.0`, the rate
multiplier stays in `[0.1, 3.0]` after any number of
`adjustRateBasedOnPerformance` calls, whatever the inputs (including
`NaN`, modelled by `none`, and arbitrarily extreme values). -/
theorem rateMultiplier_bounds (enable : Bool) (base : Rat)
    (inputs : List (Option Rat × Option Rat × Option Rat)) :
    1/10 ≤ (runAdjustments (initialRateManagerState enable base) inputs).currentRateMultiplier
      ∧ (runAdjustments (initialRateManagerState enable base) inputs).currentRateMultiplier
          ≤ 3 := by
  have hstep : ∀ (st : RateManagerState) (x y z : Option Rat),
      1/10 ≤ st.currentRateMultiplier → st.currentRateMultiplier ≤ 3 →
      1/10 ≤ (adjustRateBasedOnPerformance st x y z).currentRateMultiplier
        ∧ (adjustRateBasedOnPerformance st x y z).currentRateMultiplier ≤ 3 := by
    intro st x y z h1 h2
    rcases adjust_mult_cases st x y z with he | ⟨adj, he⟩
    · rw [he]
      exact ⟨h1, h2⟩
    · rw [he]
      exact clamp_bounds _
  have hrun : ∀ (l : List (Option Rat × Option Rat × Option Rat))
      (st : RateManagerState),
      1/10 ≤ st.currentRateMultiplier → st.currentRateMultiplier ≤ 3 →
      1/10 ≤ (runAdjustments st l).currentRateMultiplier
        ∧ (runAdjustments st l).currentRateMultiplier ≤ 3 := by
    intro l
    induction l with
    | nil =>
      intro st h1 h2
      exact ⟨h1, h2⟩
    | cons a t ih =>
      intro st h1 h2
      have h := hstep st a.1 a.2.1 a.2.2 h1 h2
      exact ih _ h.1 h.2
  exact hrun inputs _ (by norm_num [initialRateManagerState]) (by norm_num [initialRateManagerState])

/-- Counterexample to claim C4 as stated: with `successRate = 0.5`,
`avgCompletionTime = 5000 ms`, `scheduleProgress = 0.5`, the three signals
sum to `−0.2 + 0 + 0.2 = 0`, below the `0.01` threshold, yet the operation
fires (the "force minimum adjustment for testing" block substitutes
`−0.05`): `adjustmentCount` is incremented and the multiplier moves to
`0.95`.  Moreover the update is additive, not multiplicative: two firings
with signal sum `+0.2` each take the multiplier `1.0 → 1.2 → 1.4`,
whereas multiplicative application would give `1.0·1.2·1.2 = 1.44` (or
`0.2·0.2` clamped to `0.1`). -/
theorem adjust_threshold_counterexample :
    claimSignalSum (some (1/2)) (some 5000) (some (1/2)) = 0
      ∧ |(0 : Rat)| < 1/100
      ∧ (adjustRateBasedOnPerformance (initialRateManagerState true (8000/1440))
            (some (1/2)) (some 5000) (some (1/2))).rateAdjustments
          = (initialRateManagerState true (8000/1440)).rateAdjustments + 1
      ∧ (adjustRateBasedOnPerformance (initialRateManagerState true (8000/1440))
            (some (1/2)) (some 5000) (some (1/2))).currentRateMultiplier = 19/20
      ∧ claimSignalSum (some (99/100)) (some 1000) (some 1) = 1/5
      ∧ (adjustRateBasedOnPerformance (adjustRateBasedOnPerformance
              (initialRateManagerState true (8000/1440))
              (some (99/100)) (some 1000) (some 1))
            (some (99/100)) (some 1000) (some 1)).currentRateMultiplier = 7/5
      ∧ (7/5 : Rat) ≠ 1 * (1 + 1/5) * (1 + 1/5)
      ∧ (7/5 : Rat) ≠ max (1/10) (min 3 (1 * (1/5) * (1/5))) := by
  refine ⟨?_, by norm_num, ?_, ?_, ?_, ?_, by norm_num, ?_⟩
  · norm_num [claimSignalSum, jslt, jsgt]
  · norm_num [adjustRateBasedOnPerformance, forcedAdjustment, rawAdjustment,
      initialRateManagerState, jslt, jsgt, abs_neg, abs_of_pos]
  · norm_num [adjustRateBasedOnPerformance, forcedAdjustment, rawAdjustment,
      initialRateManagerState, jslt, jsgt, abs_neg, abs_of_pos]
  · norm_num [claimSignalSum, jslt, jsgt]
  · norm_num [adjustRateBasedOnPerformance, forcedAdjustment, rawAdjustment,
      initialRateManagerState, jslt, jsgt, abs_neg, abs_of_pos]
  · rw [show (1 * (1/5) * (1/5) : Rat) = 1/25 by norm_num,
      show min (3 : Rat) (1/25) = 1/25 from min_eq_right (by norm_num),
      show max (1/10 : Rat) (1/25) = 1/10 from max_eq_left (by norm_num)]
    norm_num

/-- Claim C4 as amended: `adjust` computes the signed adjustment as the
sum of the three signals; when the magnitude of that sum is below `0.01`
it substitutes the fallback adjustment (`+0.05` if `successRate > 0.95`
and latency `< 3000`, `−0.05` if `successRate < 0.8` or latency
`> 10000`, else `0`) — so a firing can occur although the signal sum is
below the threshold; the final adjustment, when its magnitude exceeds
`0.01`, is applied additively to `rateMultiplier` (then clamped to
`[0.1, 3.0]`) and increments `adjustmentCount` exactly once; otherwise
the state is unchanged. -/
theorem adjust_matches_amended_description
    (st : RateManagerState) (x y z : Option Rat) :
    adjustRateBasedOnPerformance st x y z = amendedAdjust st x y z := rfl

/-- Witness for `adjust_matches_amended_description` at a concrete state
and input. -/
theorem adjust_matches_amended_description_witness :
    adjustRateBasedOnPerformance (initialRateManagerState true (8000/1440))
        (some (1/2)) (some 5000) (some (1/2))
      = amendedAdjust (initialRateManagerState true (8000/1440))
          (some (1/2)) (some 5000) (some (1/2)) :=
  adjust_matches_amended_description (initialRateManagerState true (8000/1440))
    (some (1/2)) (some 5000) (some (1/2))

/-! ## Claim about retry handling -/

/-- Claim C2 evaluated at the failing input (`code_bug`): when a task
fails over the RPC path (hand-off error or timeout surfacing in
`sendRPCRequestNonBlocking`), `handleTaskFailure` receives
`{ correlationId }`, whose `retryCount` is `undefined`; since
`undefined < maxRetries` is false in JS, a fresh task — true retry count
`0 < maxRetries = 5`, which per the claim must be retried with `2^1 s`
backoff — is instead marked permanently failed with zero retries.  A
task object that still carried `retryCount = 0` would have been retried
(third conjunct), which is what the claim and spec describe. -/
theorem rpc_failure_forfeits_retries :
    handleTaskFailure defaultMaxRetries rpcFailureRetryCount = .permanentFailure
      ∧ 0 < defaultMaxRetries
      ∧ handleTaskFailure defaultMaxRetries (some 0)
          = .scheduleRetry 1 (2 ^ 1 * 1000) :=
  ⟨rfl, by norm_num [defaultMaxRetries], rfl⟩

/-! ## Claims about the dispatch loop -/

theorem runDispatch_spec (tasks : List GenTask) (rate rand : Nat → Rat)
    (replies : Nat → List Reply) (n : Nat) :
    (runDispatch tasks rate rand replies n).taskIndex = min n tasks.length
      ∧ (runDispatch tasks rate rand replies n).sentLog
          = (tasks.take n).map sendTaskToWorker
      ∧ (runDispatch tasks rate rand replies n).delayLog
          = (List.range (min n tasks.length)).map (fun k => pacingDelay (rate k) (rand k))
      ∧ (runDispatch tasks rate rand replies n).rmTasksSent = min n tasks.length := by
  induction n with
  | zero => simp [runDispatch, initialDispatchState]
  | succ n ih =>
    obtain ⟨hidx, hsent, hdelay, hcount⟩ := ih
    simp only [runDispatch]
    unfold sendNextTask
    simp only [hidx]
    by_cases hn : n < tasks.length
    · rw [Nat.min_eq_left (Nat.le_of_lt hn), List.getElem?_eq_getElem hn]
      refine ⟨?_, ?_, ?_, ?_⟩
      · simp only []
        omega
      · simp only [hsent, List.take_succ, List.getElem?_eq_getElem hn,
          Option.toList_some, List.map_append]
        simp
      · simp only [hdelay]
        rw [Nat.min_eq_left (by omega : n + 1 ≤ tasks.length), List.range_succ,
          List.map_append, Nat.min_eq_left (Nat.le_of_lt hn)]
        simp
      · simp only [hcount]
        omega
    · have hle : tasks.length ≤ n := Nat.le_of_not_lt hn
      rw [Nat.min_eq_right hle, List.getElem?_eq_none (by omega : tasks.length ≤ tasks.length)]
      refine ⟨?_, ?_, ?_, ?_⟩
      · simp only [hidx]
        omega
      · simp only [hsent]
        rw [List.take_of_length_le hle, List.take_of_length_le (by omega)]
      · simp only [hdelay]
        rw [Nat.min_eq_right hle, Nat.min_eq_right (by omega : tasks.length ≤ n + 1)]
      · simp only [hcount]
        rw [Nat.min_eq_right hle, Nat.min_eq_right (by omega : tasks.length ≤ n + 1)]

/-- Claim C6: `sendTaskToWorker` resolves with
`{status: "sent", correlation_id: task.correlationId}` for every task,
without awaiting the RPC reply; consequently after `n` rounds the
dispatch loop has issued exactly `min n tasks.length` sends (the first
`n` tasks, in order), each followed by the rate-manager-determined
pacing delay, and both logs are identical under any two reply schedules:
the send cadence is independent of reply latency. -/
theorem dispatch_sends_independent_of_replies :
    (∀ task : GenTask, sendTaskToWorker task
        = { status := "sent", correlation_id := task.correlationId })
      ∧ ∀ (tasks : List GenTask) (rate rand : Nat → Rat)
          (replies replies' : Nat → List Reply) (n : Nat),
          (runDispatch tasks rate rand replies n).sentLog
              = (tasks.take n).map sendTaskToWorker
            ∧ (runDispatch tasks rate rand replies n).sentLog.length
                = min n tasks.length
            ∧ (runDispatch tasks rate rand replies n).delayLog
                = (List.range (min n tasks.length)).map
                    (fun k => pacingDelay (rate k) (rand k))
            ∧ (runDispatch tasks rate rand replies n).sentLog
                = (runDispatch tasks rate rand replies' n).sentLog
            ∧ (runDispatch tasks rate rand replies n).delayLog
                = (runDispatch tasks rate rand replies' n).delayLog
            ∧ (runDispatch tasks rate rand replies n).taskIndex
                = (runDispatch tasks rate rand replies' n).taskIndex := by
  refine ⟨fun task => rfl, ?_⟩
  intro tasks rate rand replies replies' n
  obtain ⟨hidx, hsent, hdelay, _⟩ := runDispatch_spec tasks rate rand replies n
  obtain ⟨hidx', hsent', hdelay', _⟩ := runDispatch_spec tasks rate rand replies' n
  refine ⟨hsent, ?_, hdelay, hsent.trans hsent'.symm, hdelay.trans hdelay'.symm,
    hidx.trans hidx'.symm⟩
  rw [hsent, List.length_map, List.length_take]

/-! ## Claims about startup recovery -/

/-- Claim C7: every dispatch loop restarted by recovery is given exactly
the recovered tasks of its session whose status is `pending`; no task
with status `sent` is handed to any restarted loop (so `sent` tasks are
never re-sent by recovery). -/
theorem recovery_restarts_only_pending (rows : List TaskRow) (sid : String)
    (ts : List RecoveredTask) (h : (sid, ts) ∈ startedLoops rows) :
    (∃ all, (sid, all) ∈ groupTasksBySession rows ∧ ts = pendingOf all)
      ∧ (∀ t ∈ ts, t.status = "pending") ∧ ∀ t ∈ ts, t.status ≠ "sent" := by
  unfold startedLoops at h
  rcases List.mem_filterMap.mp h with ⟨p, hp, hcond⟩
  dsimp only at hcond
  split at hcond
  case isTrue hlen =>
    rw [Option.some.injEq, Prod.mk.injEq] at hcond
    obtain ⟨h1, h2⟩ := hcond
    have hstat : ∀ t ∈ ts, t.status = "pending" := by
      intro t ht
      rw [← h2] at ht
      unfold pendingOf at ht
      exact eq_of_beq (List.mem_filter.mp ht).2
    refine ⟨⟨p.2, ?_, h2.symm⟩, hstat, ?_⟩
    · rw [← h1, Prod.mk.eta]
      exact hp
    · intro t ht
      rw [hstat t ht]
      decide
  case isFalse hlen => exact absurd hcond (by simp)

/-- Witness for `recovery_restarts_only_pending`: a store with one
session holding a `pending` and a `sent` task, plus a second session
whose only task is `sent`; recovery restarts exactly one loop, over the
single pending task. -/
theorem recovery_restarts_only_pending_witness :
    ("s-1", [rowToTask exampleTaskRow])
        ∈ startedLoops [exampleTaskRow, exampleSentRow, exampleOtherSessionRow]
      ∧ ∀ t ∈ [rowToTask exampleTaskRow], t.status ≠ "sent" := by
  have hmem : ("s-1", [rowToTask exampleTaskRow])
      ∈ startedLoops [exampleTaskRow, exampleSentRow, exampleOtherSessionRow] := by
    decide
  exact ⟨hmem,
    (recovery_restarts_only_pending [exampleTaskRow, exampleSentRow, exampleOtherSessionRow]
      "s-1" [rowToTask exampleTaskRow] hmem).2.2⟩

/-! Key-set lemmas for the `Map.set` model. -/

theorem assocSet_keys_of_mem {α : Type} (m : List (String × α)) (k : String) (v : α)
    (h : k ∈ m.map Prod.fst) : (assocSet m k v).map Prod.fst = m.map Prod.fst := by
  unfold assocSet
  have hany : m.any (fun p => p.1 == k) = true := by
    rcases List.mem_map.mp h with ⟨p, hp, hk⟩
    exact List.any_eq_true.mpr ⟨p, hp, by simp [hk]⟩
  rw [if_pos hany, List.map_map]
  apply List.map_congr_left
  intro p hp
  by_cases hpk : (p.1 == k) = true
  · simp only [Function.comp, hpk, if_true]
    exact (eq_of_beq hpk).symm
  · simp [Function.comp, hpk]

theorem assocSet_keys_of_not_mem {α : Type} (m : List (String × α)) (k : String) (v : α)
    (h : k ∉ m.map Prod.fst) :
    (assocSet m k v).map Prod.fst = m.map Prod.fst ++ [k] := by
  unfold assocSet
  have hany : m.any (fun p => p.1 == k) = false := by
    rw [List.any_eq_false]
    intro p hp hbeq
    exact h (List.mem_map.mpr ⟨p, hp, eq_of_beq hbeq⟩)
  rw [if_neg (by simp [hany]), List.map_append]
  rfl

theorem mem_keys_assocSet {α : Type} (m : List (String × α)) (k : String) (v : α)
    (k' : String) (h : k' ∈ m.map Prod.fst) : k' ∈ (assocSet m k v).map Prod.fst := by
  by_cases hk : k ∈ m.map Prod.fst
  · rw [assocSet_keys_of_mem m k v hk]
    exact h
  · rw [assocSet_keys_of_not_mem m k v hk]
    exact List.mem_append_left _ h

theorem self_mem_keys_assocSet {α : Type} (m : List (String × α)) (k : String) (v : α) :
    k ∈ (assocSet m k v).map Prod.fst := by
  by_cases hk : k ∈ m.map Prod.fst
  · rw [assocSet_keys_of_mem m k v hk]
    exact hk
  · rw [assocSet_keys_of_not_mem m k v hk]
    exact List.mem_append_right _ (by simp)

theorem recoverActive_keys_unchanged (sids : List String) (st : ClientState)
    (h : ∀ sid ∈ sids, sid ∈ st.activeSessions.map Prod.fst) :
    (recoverActiveSessionsState sids st).activeSessions.map Prod.fst
      = st.activeSessions.map Prod.fst := by
  unfold recoverActiveSessionsState
  dsimp only
  induction sids generalizing st with
  | nil => rfl
  | cons a t ih =>
    rw [List.foldl_cons]
    have ha := h a (List.mem_cons_self a t)
    have hkeys := assocSet_keys_of_mem st.activeSessions a (.recoveredSession a) ha
    have ht : ∀ sid ∈ t, sid ∈ (assocSet st.activeSessions a (.recoveredSession a)).map Prod.fst := by
      intro sid hsid
      rw [hkeys]
      exact h sid (List.mem_cons_of_mem a hsid)
    calc (t.foldl (fun m sid => assocSet m sid (.recoveredSession sid))
            (assocSet st.activeSessions a (.recoveredSession a))).map Prod.fst
        = (assocSet st.activeSessions a (.recoveredSession a)).map Prod.fst :=
          ih { st with activeSessions := assocSet st.activeSessions a (.recoveredSession a) } ht
      _ = st.activeSessions.map Prod.fst := hkeys

theorem mem_keys_recoverActive (sids : List String) (st : ClientState) (k : String)
    (h : k ∈ st.activeSessions.map Prod.fst) :
    k ∈ (recoverActiveSessionsState sids st).activeSessions.map Prod.fst := by
  unfold recoverActiveSessionsState
  dsimp only
  induction sids generalizing st with
  | nil => exact h
  | cons a t ih =>
    rw [List.foldl_cons]
    exact ih { st with activeSessions := assocSet st.activeSessions a (.recoveredSession a) }
      (mem_keys_assocSet st.activeSessions a (.recoveredSession a) k h)

theorem sid_mem_keys_recoverActive (sids : List String) (st : ClientState) (sid : String)
    (h : sid ∈ sids) :
    sid ∈ (recoverActiveSessionsState sids st).activeSessions.map Prod.fst := by
  unfold recoverActiveSessionsState
  dsimp only
  induction sids generalizing st with
  | nil => cases h
  | cons a t ih =>
    rw [List.foldl_cons]
    rcases List.mem_cons.mp h with rfl | hmem
    · have : sid ∈ (assocSet st.activeSessions sid (.recoveredSession sid)).map Prod.fst :=
        self_mem_keys_assocSet st.activeSessions sid (.recoveredSession sid)
      have hgen : ∀ (st' : ClientState), sid ∈ st'.activeSessions.map Prod.fst →
          sid ∈ (t.foldl (fun m s => assocSet m s (.recoveredSession s))
            st'.activeSessions).map Prod.fst := by
        intro st' h'
        have := mem_keys_recoverActive t st' sid h'
        unfold recoverActiveSessionsState at this
        exact this
      exact hgen { st with activeSessions := assocSet st.activeSessions sid (.recoveredSession sid) } this
    · exact ih { st with activeSessions := assocSet st.activeSessions a (.recoveredSession a) } hmem

theorem foldl_resume_loops (groups : List (String × List RecoveredTask)) (st : ClientState) :
    (groups.foldl resumeSession st).dispatchLoops
      = st.dispatchLoops ++ groups.filterMap (fun p =>
          let pending := pendingOf p.2
          if pending.length > 0 then some (p.1, pending) else none) := by
  induction groups generalizing st with
  | nil => simp
  | cons g t ih =>
    rw [List.foldl_cons, ih, List.filterMap_cons]
    unfold resumeSession
    dsimp only
    split
    case isTrue hlen => simp
    case isFalse hlen => simp

theorem foldl_resume_keys_mono (groups : List (String × List RecoveredTask))
    (st : ClientState) (k : String) (h : k ∈ st.activeSessions.map Prod.fst) :
    k ∈ (groups.foldl resumeSession st).activeSessions.map Prod.fst := by
  induction groups generalizing st with
  | nil => exact h
  | cons g t ih =>
    rw [List.foldl_cons]
    apply ih
    unfold resumeSession
    dsimp only
    split
    · exact mem_keys_assocSet st.activeSessions g.1 _ k h
    · exact h

theorem mem_keys_foldl_resume (groups : List (String × List RecoveredTask))
    (st : ClientState) (g : String × List RecoveredTask) (hg : g ∈ groups)
    (hlen : 0 < (pendingOf g.2).length) :
    g.1 ∈ (groups.foldl resumeSession st).activeSessions.map Prod.fst := by
  induction groups generalizing st with
  | nil => cases hg
  | cons a t ih =>
    rw [List.foldl_cons]
    rcases List.mem_cons.mp hg with rfl | hmem
    · apply foldl_resume_keys_mono
      unfold resumeSession
      dsimp only
      rw [if_pos hlen]
      exact self_mem_keys_assocSet st.activeSessions g.1 _
    · exact ih _ hmem

theorem foldl_resume_keys_unchanged (groups : List (String × List RecoveredTask))
    (st : ClientState)
    (h : ∀ g ∈ groups, 0 < (pendingOf g.2).length → g.1 ∈ st.activeSessions.map Prod.fst) :
    (groups.foldl resumeSession st).activeSessions.map Prod.fst
      = st.activeSessions.map Prod.fst := by
  induction groups generalizing st with
  | nil => rfl
  | cons g t ih =>
    rw [List.foldl_cons]
    by_cases hlen : 0 < (pendingOf g.2).length
    · have hkeys :
          (resumeSession st g).activeSessions.map Prod.fst
            = st.activeSessions.map Prod.fst := by
        unfold resumeSession
        dsimp only
        rw [if_pos hlen]
        exact assocSet_keys_of_mem st.activeSessions g.1 _
          (h g (List.mem_cons_self g t) hlen)
      rw [ih (resumeSession st g) ?_, hkeys]
      intro g' hg' hlen'
      rw [hkeys]
      exact h g' (List.mem_cons_of_mem g hg') hlen'
    · have hkeys : (resumeSession st g) = st := by
        unfold resumeSession
        dsimp only
        rw [if_neg hlen]
      rw [hkeys]
      exact ih st fun g' hg' hlen' => h g' (List.mem_cons_of_mem g hg') hlen'

/-- Counterexample to claim C8 as stated: against the unchanged store
state "one active session `s-1` with one `pending` task", running
recovery twice does not produce the same in-memory result as running it
once — the second run starts a second (duplicate) dispatch loop for
`s-1`: one loop after one run, two loops after two runs. -/
theorem recovery_idempotence_counterexample :
    (recoverStartup ["s-1"] [exampleTaskRow]
        (recoverStartup ["s-1"] [exampleTaskRow] emptyClientState)).dispatchLoops.length = 2
      ∧ (recoverStartup ["s-1"] [exampleTaskRow] emptyClientState).dispatchLoops.length = 1
      ∧ recoverStartup ["s-1"] [exampleTaskRow]
          (recoverStartup ["s-1"] [exampleTaskRow] emptyClientState)
        ≠ recoverStartup ["s-1"] [exampleTaskRow] emptyClientState :=
  ⟨by decide, by decide, by decide⟩

/-- Claim C8 as amended: running recovery twice against the same
unchanged store state adds no entry to the active-session registry (the
`Map.set` calls of the second run only overwrite keys the first run
already registered, so the registry's key list is unchanged and in
particular holds no duplicates), but it is not idempotent for dispatch
loops: each run unconditionally appends one fresh dispatch loop per
session with pending tasks, so the second run duplicates every such
loop. -/
theorem recovery_registry_stable_loops_duplicated (sessionIds : List String)
    (rows : List TaskRow) (st : ClientState) :
    (recoverStartup sessionIds rows
          (recoverStartup sessionIds rows st)).activeSessions.map Prod.fst
        = (recoverStartup sessionIds rows st).activeSessions.map Prod.fst
      ∧ (recoverStartup sessionIds rows st).dispatchLoops
          = st.dispatchLoops ++ startedLoops rows
      ∧ (recoverStartup sessionIds rows
            (recoverStartup sessionIds rows st)).dispatchLoops
          = (recoverStartup sessionIds rows st).dispatchLoops ++ startedLoops rows := by
  have hloops : ∀ st' : ClientState,
      (recoverStartup sessionIds rows st').dispatchLoops
        = st'.dispatchLoops ++ startedLoops rows := by
    intro st'
    unfold recoverStartup recoverPendingTasksState startedLoops
    rw [foldl_resume_loops]
    rfl
  have hkeys1 : ∀ (st' : ClientState) (sid : String), sid ∈ sessionIds →
      sid ∈ (recoverStartup sessionIds rows st').activeSessions.map Prod.fst := by
    intro st' sid hsid
    unfold recoverStartup recoverPendingTasksState
    exact foldl_resume_keys_mono _ _ sid
      (sid_mem_keys_recoverActive sessionIds st' sid hsid)
  have hkeys2 : ∀ (st' : ClientState) (g : String × List RecoveredTask),
      g ∈ groupTasksBySession rows → 0 < (pendingOf g.2).length →
      g.1 ∈ (recoverStartup sessionIds rows st').activeSessions.map Prod.fst := by
    intro st' g hg hlen
    unfold recoverStartup recoverPendingTasksState
    exact mem_keys_foldl_resume _ _ g hg hlen
  refine ⟨?_, hloops st, hloops _⟩
  set st1 := recoverStartup sessionIds rows st with hst1
  have hactive :
      (recoverActiveSessionsState sessionIds st1).activeSessions.map Prod.fst
        = st1.activeSessions.map Prod.fst :=
    recoverActive_keys_unchanged sessionIds st1 (fun sid hsid => hkeys1 st sid hsid)
  show (recoverPendingTasksState rows
      (recoverActiveSessionsState sessionIds st1)).activeSessions.map Prod.fst
    = st1.activeSessions.map Prod.fst
  unfold recoverPendingTasksState
  rw [foldl_resume_keys_unchanged _ _ ?_, hactive]
  intro g hg hlen
  rw [hactive]
  exact hkeys2 st g hg hlen

end BrowserAutomation
